import Mathlib

/-!
Verification of the reindexer engine core against its specification.

Each section shallowly embeds one fragment of the C++ sources
(`cpp_src/core/...`) as executable Lean definitions and proves, or refutes,
one spec claim about that fragment.  Machine integers are modelled as `Nat`
or `Int` with explicit `% 2 ^ w` truncation where the C++ arithmetic can
wrap; C++ truncating integer division is `Int.tdiv`; fallible operations
return `Except` values or explicit error options.
-/

namespace Spec2Proof

/-- Error codes of the engine.  The C++ `Error` constructor receives the code
as a plain integer (`tools/errors.h` is outside the embedded sources; the
spec fixes the closed set of code names).  The extra value
`logLevelLogError` records that `NamespaceImpl::dropIndex` passes the
logging-level constant `LogError` (from `tools/loglevel.h`, a different C++
enum that converts to the integer 1, which is not the value of the
`errConflict` constant) where an error code is expected. -/
inductive ErrCode where
  | errOK
  | errParseSQL
  | errQueryExec
  | errParams
  | errLogic
  | errConflict
  | errNotFound
  | errForbidden
  | errNamespaceInvalidated
  | logLevelLogError
deriving DecidableEq, Repr

/-- An engine error: code plus formatted message, as thrown by `Error(code, fmt, ...)`. -/
structure RxError where
  code : ErrCode
  msg : String
deriving DecidableEq, Repr

/-! ## Transaction copy-on-write policy (`core/namespace/namespace.cc`)

`Namespace::CommitTransaction` either replays the transaction in place under
the namespace write lock or clones the namespace, applies the transaction to
the clone and atomically swaps it in.  The choice is made by
`Namespace::needNamespaceCopy`. -/

/-- Copy-policy configuration of `Namespace`: the three atomics
`startCopyPolicyTxSize_`, `copyPolicyMultiplier_` and `txSizeToAlwaysCopy_`,
each loaded and cast to `uint32_t` inside `needNamespaceCopy`. -/
structure CopyPolicyConfig where
  startCopyPolicyTxSize : Nat
  copyPolicyMultiplier : Nat
  txSizeToAlwaysCopy : Nat
deriving DecidableEq, Repr

/-- Model of `Namespace::needNamespaceCopy` (namespace.cc:85-92):
`((stepsCount >= startCopyPolicyTxSize) && (ns->GetItemsCapacity() <= copyPolicyMultiplier * stepsCount)) || (stepsCount >= txSizeToAlwaysCopy)`.
`stepsCount` is `tx.GetSteps().size()` (a `size_t`), the three config values
are truncated to `uint32_t`, `GetItemsCapacity()` returns the `uint32_t`
snapshot of `items_.capacity()`, and the product is computed in `size_t`
arithmetic (modulo `2 ^ 64`). -/
def needNamespaceCopy (cfg : CopyPolicyConfig) (itemsCapacity stepsCount : Nat) : Bool :=
  let start := cfg.startCopyPolicyTxSize % 2 ^ 32
  let mult := cfg.copyPolicyMultiplier % 2 ^ 32
  let always := cfg.txSizeToAlwaysCopy % 2 ^ 32
  (decide (stepsCount ≥ start) && decide (itemsCapacity % 2 ^ 32 ≤ mult * stepsCount % 2 ^ 64))
    || decide (stepsCount ≥ always)

/-! ## Fulltext typo and stem relevancy (`core/ft/ft_fast/selecter.cc`)

`Selecter::processTypos` computes the relevancy percent contributed by a
dictionary word reached through a typo, and `Selecter::prepareVariants`
pushes stemmed variants with a reduced percent. -/

/-- Maximum relevancy percent of a typo match (selecter.cc: `kTypoProc`). -/
def kTypoProc : Int := 85

/-- Relevancy step of a typo match (selecter.cc: `kTypoStepProc`). -/
def kTypoStepProc : Int := 15

/-- Percent decrease for variants found via a word stem
(selecter.cc: `kStemProcDecrease`). -/
def kStemProcDecrease : Int := 15

/-- Model of the typo relevancy computation in `Selecter::processTypos`:
`int proc = kTypoProc - tcount * kTypoStepProc / std::max((wordLength - tcount) / 3, 1);`
where `wordLength` is the matched dictionary word length (`uint8_t`, promoted
to `int`) and `tcount` the edit count of the typo.  C++ `int` division
truncates toward zero (`Int.tdiv`). -/
def typoWordProc (wordLength tcount : Int) : Int :=
  kTypoProc - Int.tdiv (tcount * kTypoStepProc) (max (Int.tdiv (wordLength - tcount) 3) 1)

/-- Model of the stem-variant percent in `Selecter::prepareVariants`:
`variants.push_back({stemstr, opts, v.second - kStemProcDecrease});`
where `v.second` is the base percent of the variant being stemmed. -/
def stemVariantProc (baseProc : Int) : Int := baseProc - kStemProcDecrease

/-- Typo relevancy percent as the specification words it:
`85 − tcount × 15 / max(1, (wordlen − tcount) / 3)`.  Written from the spec
sentence, to be compared with `typoWordProc` from the source. -/
def specTypoProc (wordlen tcount : Int) : Int :=
  85 - Int.tdiv (tcount * 15) (max 1 (Int.tdiv (wordlen - tcount) 3))

/-! ## Tagged string handles (`core/keyvalue/p_string.h`)

A `p_string` is a single 64-bit word: a pointer with a 3-bit representation
tag stored at bit offset 59 (`tagShift`), written by each constructor as
`(uintptr_t(ptr) & ~tagMask) | (tag << tagShift)`.  The default constructor
produces the all-zero word, and accessors guard on `if (v)`. -/

/-- Tag of a C null-terminated string (`p_string::tagCstr = 0x0`). -/
def tagCstr : Nat := 0

/-- Tag of a 4-byte-length-prefixed string (`p_string::tagLstr = 0x1`). -/
def tagLstr : Nat := 1

/-- Tag of a C++ `std::string` object (`p_string::tagCxxstr = 0x2`). -/
def tagCxxstr : Nat := 2

/-- Tag of a varint-length-prefixed string (`p_string::tagVstr = 0x3`). -/
def tagVstr : Nat := 3

/-- Tag of a slice object (`p_string::tagSlice = 0x4`). -/
def tagSlice : Nat := 4

/-- Tag of a reference-counted key string (`p_string::tagKeyString = 0x5`). -/
def tagKeyString : Nat := 5

/-- Tag of a json string pointer (`p_string::tagJsonStr = 0x6`). -/
def tagJsonStr : Nat := 6

/-- Tag of a msgpack string (`p_string::tagMsgPackStr = 0x7`). -/
def tagMsgPackStr : Nat := 7

/-- Bit offset of the tag in the pointer word (`p_string::tagShift = 59`). -/
def tagShift : Nat := 59

/-- Tag mask `0x7ULL << tagShift` (`p_string::tagMask`). -/
def tagMask : Nat := 7 <<< tagShift

/-- All ones of the 64-bit pointer word; `~tagMask` in 64-bit C++ is
`word64AllOnes ^^^ tagMask`. -/
def word64AllOnes : Nat := 2 ^ 64 - 1

/-- Model of the tagged-word construction shared by every `p_string`
constructor: `v = (uintptr_t(ptr) & ~tagMask) | (tag << tagShift)`. -/
def pStringMk (ptr tag : Nat) : Nat :=
  (ptr &&& (word64AllOnes ^^^ tagMask)) ||| (tag <<< tagShift)

/-- Model of `explicit p_string(const char *cstr)`. -/
def pStringOfCstr (ptr : Nat) : Nat := pStringMk ptr tagCstr

/-- Model of `explicit p_string(const l_string_hdr *lstr)`. -/
def pStringOfLstr (ptr : Nat) : Nat := pStringMk ptr tagLstr

/-- Model of `explicit p_string(const string *str)`. -/
def pStringOfCxxstr (ptr : Nat) : Nat := pStringMk ptr tagCxxstr

/-- Model of `explicit p_string(const v_string_hdr *vstr)`. -/
def pStringOfVstr (ptr : Nat) : Nat := pStringMk ptr tagVstr

/-- Model of `explicit p_string(const std::string_view *ptr)`. -/
def pStringOfSlice (ptr : Nat) : Nat := pStringMk ptr tagSlice

/-- Model of `explicit p_string(const key_string &str)`. -/
def pStringOfKeyString (ptr : Nat) : Nat := pStringMk ptr tagKeyString

/-- Model of `explicit p_string(const json_string_ftr jstr)`. -/
def pStringOfJsonStr (ptr : Nat) : Nat := pStringMk ptr tagJsonStr

/-- Model of `explicit p_string(const l_msgpack_hdr *mstr)`. -/
def pStringOfMsgPackStr (ptr : Nat) : Nat := pStringMk ptr tagMsgPackStr

/-- Model of the default constructor `p_string() : v(0)`: the null handle is
the all-zero word. -/
def pStringDefault : Nat := 0

/-- Model of `p_string::type()`: `(v & tagMask) >> tagShift`. -/
def pStringType (v : Nat) : Nat := (v &&& tagMask) >>> tagShift

/-- Whether a `p_string` word is the null handle: `length()` and `ptr()`
test the whole word (`if (v)`), not the tag, so null means `v == 0`. -/
def pStringIsNullWord (v : Nat) : Bool := v == 0

/-! ## Dropping an index (`NamespaceImpl::dropIndex`, core/namespace/namespaceimpl.cc)

`dropIndex` locates the index by name, and refuses to drop it when some
composite index lists its position among its component fields.  Composite
indexes live at the tail of `indexes_`, starting at
`indexes_.firstCompositePos()`. -/

/-- One entry of the namespace index vector, with the data `dropIndex`
inspects: name, the sparse and composite options and, for composite indexes,
the component field positions stored in `Fields()`. -/
structure IdxEntry where
  name : String
  isSparse : Bool
  isComposite : Bool
  isPK : Bool
  fields : List Nat
deriving DecidableEq, Repr, Inhabited

/-- The part of the namespace state that `dropIndex` reads and writes in the
embedded fragment: the index vector and `sparseIndexesCount_`. -/
structure IndexesState where
  indexes : List IdxEntry
  sparseIndexesCount : Nat
deriving DecidableEq, Repr

/-- Model of `indexes_.firstCompositePos()`: the position of the first
composite index (composite indexes are appended at the tail by
`addCompositeIndex`); the total size when there is none. -/
def firstCompositePos (l : List IdxEntry) : Nat := l.findIdx (·.isComposite)

/-- Model of `NamespaceImpl::dropIndex` (the fragment up to and including the
composite-component guard, plus the field renumbering and erasure of the
success path).  Mirrors the source order: the name lookup (`errParams` when
absent), the `--sparseIndexesCount_` decrement, then the loop
`for (int i = indexes_.firstCompositePos(); i < indexes_.totalSize(); ++i) if (indexes_[i]->Fields().contains(fieldIdx)) throw Error(LogError, ...)`.
Note the guard passes the logging-level constant `LogError` to `Error`,
not `errConflict`.  Returns the state as left by the call together with the
thrown error, if any.  (Storage, payload-type and items rebuilding of the
success path are outside this fragment.) -/
def dropIndex (st : IndexesState) (nm : String) : IndexesState × Option RxError :=
  match st.indexes.findIdx? (fun e => e.name == nm) with
  | none => (st, some ⟨.errParams, "Cannot remove index: doesnt exist"⟩)
  | some fieldIdx =>
    let entry := st.indexes.getD fieldIdx default
    let st1 :=
      if entry.isSparse then { st with sparseIndexesCount := st.sparseIndexesCount - 1 } else st
    let conflict := (List.range st1.indexes.length).any (fun i =>
      decide (firstCompositePos st1.indexes ≤ i)
        && decide (fieldIdx ∈ (st1.indexes.getD i default).fields))
    if conflict then
      (st1, some ⟨.logLevelLogError, "Cannot remove index: its a part of a composite index"⟩)
    else
      let renumbered := st1.indexes.map (fun e =>
        { e with fields := e.fields.map (fun f => if f < fieldIdx then f else f - 1) })
      ({ st1 with indexes := renumbered.eraseIdx fieldIdx }, none)

/-- Concrete namespace index state: two scalar indexes and a composite index
over both of them, as built by `AddIndex("price"), AddIndex("pages"), AddIndex("price+pages")`. -/
def compositeExampleIndexes : IndexesState :=
  ⟨[⟨"price", false, false, false, []⟩,
    ⟨"pages", false, false, false, []⟩,
    ⟨"price+pages", false, true, false, [0, 1]⟩], 0⟩

/-! ## Unordered index state (`core/index/indexunordered.cc`)

An `IndexUnordered` keeps `idx_map` (key to idset), the `empty_ids_` bucket
for null keys, and an optional idset cache object `cache_`
(a `shared_ptr<IdSetCache>` that `Upsert`/`Delete` reset to null and
`Commit` recreates).  Keys are modelled as `Nat`, idsets as `List Nat`. -/

/-- An idset cache: entries keyed by the normalized query keys, holding
either a cached merged idset or the null-ids marker that records a
comparator-fallback plan (`IdSetCacheVal` with `ids == nullptr`). -/
abbrev IdSetCache := List (List Nat × Option (List Nat))

/-- State of one unordered index: its key map, null-key bucket and cache.
`cache = none` models a null `cache_` pointer. -/
structure IndexModel where
  idxMap : List (Nat × List Nat)
  emptyIds : List Nat
  cache : Option IdSetCache
deriving DecidableEq, Repr

instance : Inhabited IndexModel := ⟨⟨[], [], none⟩⟩

/-- Model of `IdSet::Add` with deduplication: returns the new idset and
whether the id was actually inserted (the C++ `Add` returns a bool that
drives cache invalidation). -/
def idsetAdd (id : Nat) (s : List Nat) : List Nat × Bool :=
  if id ∈ s then (s, false) else (s ++ [id], true)

/-- Model of `IdSet::Erase`: removes the id and returns the erased count. -/
def idsetErase (id : Nat) (s : List Nat) : List Nat × Nat :=
  (s.filter (fun x => x ≠ id), s.count id)

/-- First-match association lookup, modelling `idx_map.find(key)`. -/
def mapLookup (k : Nat) : List (Nat × List Nat) → Option (List Nat)
  | [] => none
  | p :: r => if p.1 = k then some p.2 else mapLookup k r

/-- Replace the value of the first entry with key `k`, modelling a write
through the iterator returned by `idx_map.find`. -/
def mapSetFirst (k : Nat) (v : List Nat) : List (Nat × List Nat) → List (Nat × List Nat)
  | [] => []
  | p :: r => if p.1 = k then (k, v) :: r else p :: mapSetFirst k v r

/-- Erase the first entry with key `k`, modelling `idx_map.erase(keyIt)`. -/
def mapEraseFirst (k : Nat) : List (Nat × List Nat) → List (Nat × List Nat)
  | [] => []
  | p :: r => if p.1 = k then r else p :: mapEraseFirst k r

/-- Model of `IndexUnordered::Upsert(key, id, clearCache)`
(indexunordered.cc:121-155) for scalar keys.  A null key goes to
`empty_ids_`; otherwise the key bucket is found or inserted and the id
added.  Exactly when `Add` reports an actual insertion the cache object is
reset (`cache_.reset()`, modelled as `cache := none`) and the clear flag is
set (returned as the second component). -/
def indexUpsert (key : Option Nat) (id : Nat) (idx : IndexModel) : IndexModel × Bool :=
  match key with
  | none =>
    let (s, added) := idsetAdd id idx.emptyIds
    if added then ({ idx with emptyIds := s, cache := none }, true)
    else ({ idx with emptyIds := s }, false)
  | some k =>
    let m1 := if (mapLookup k idx.idxMap).isSome then idx.idxMap else idx.idxMap ++ [(k, [])]
    let bucket := (mapLookup k m1).getD []
    let (s, added) := idsetAdd id bucket
    let m2 := mapSetFirst k s m1
    if added then ({ idx with idxMap := m2, cache := none }, true)
    else ({ idx with idxMap := m2 }, false)

/-- Model of `IndexUnordered::Delete(key, id, strHolder, clearCache)`
(indexunordered.cc:157-200) for scalar keys.  A null key erases from
`empty_ids_` and clears the cache.  A missing key returns unchanged without
clearing (`if (keyIt == idx_map.end()) return;`).  A found key erases the
id, clears the cache, and removes the bucket once empty. -/
def indexDelete (key : Option Nat) (id : Nat) (idx : IndexModel) : IndexModel × Bool :=
  match key with
  | none =>
    ({ idx with emptyIds := (idsetErase id idx.emptyIds).1, cache := none }, true)
  | some k =>
    match mapLookup k idx.idxMap with
    | none => (idx, false)
    | some bucket =>
      let s := (idsetErase id bucket).1
      if s.isEmpty then ({ idx with idxMap := mapEraseFirst k idx.idxMap, cache := none }, true)
      else ({ idx with idxMap := mapSetFirst k s idx.idxMap, cache := none }, true)

/-! ## Index select (`IndexUnordered::SelectKey`, indexunordered.cc:226-324) -/

/-- Query condition kinds handled by `SelectKey`. -/
inductive CondT where
  | condAny
  | condEq
  | condSet
  | condAllSet
  | condEmpty
  | condGe
  | condLe
  | condGt
  | condLt
  | condRange
  | condLike
deriving DecidableEq, Repr

/-- The fields of `Index::SelectOpts` that `IndexUnordered::SelectKey` reads. -/
structure SelectOpts where
  itemsCountInNamespace : Nat
  maxIterations : Int
  distinct : Bool
  disableIdSetCache : Bool
  forceComparator : Bool
deriving DecidableEq, Repr

/-- Outcome of one `SelectKey` call, as far as the embedded claims need to
distinguish: a comparator plan (with a flag telling whether it was reached
through the selectivity fallback rather than `forceComparator` or an
unsupported condition), gathered per-key idsets, a cached idset, or the
null-key bucket. -/
inductive SelectKeyOutcome where
  | comparator (viaSelectivityFallback : Bool)
  | idsets (buckets : List (List Nat))
  | cachedIdset (ids : List Nat)
  | emptyBucket (ids : List Nat)
deriving DecidableEq, Repr

/-- Modelled from the spec: `maxSelectivityPercentForIdset()` (declared in
`indexunordered.h`, which is not among the sources); spec section 4.2 fixes
the selectivity threshold at 20 percent of the namespace item count. -/
def maxSelectivityPercentForIdset : Nat := 20

/-- Threshold for the distinct `CondAny` map walk
(indexunordered.cc: `kMaxIdsForDistinct`). -/
def kMaxIdsForDistinct : Nat := 500

/-- The gathering loop of the `CondEq`/`CondSet` selector: for each key found
in `idx_map`, its idset bucket is appended to the result
(missing keys contribute nothing). -/
def gatherBuckets (m : List (Nat × List Nat)) (keys : List Nat) : List (List Nat) :=
  keys.filterMap (fun k => mapLookup k m)

/-- Model of the selectivity check of the `CondEq`/`CondSet` selector lambda
(indexunordered.cc:254-272): it reports a comparator fallback
(`return true`) iff `opts.itemsCountInNamespace` is nonzero, more than one
key bucket was gathered, and either twice the gathered id count exceeds
`opts.maxIterations` (an `int`; the model assumes the `int` cast of
`idsCount * 2` does not wrap) or the gathered ids are more than
`maxSelectivityPercentForIdset` percent of the namespace items. -/
def selectorScanWin (buckets : List (List Nat)) (opts : SelectOpts) : Bool :=
  let idsCount := (buckets.map List.length).sum
  if opts.itemsCountInNamespace = 0 then false
  else
    decide (buckets.length > 1)
      && (decide ((idsCount : Int) * 2 > opts.maxIterations)
          || decide (100 * idsCount / opts.itemsCountInNamespace > maxSelectivityPercentForIdset))

/-- Lookup in an idset cache, modelling `cache_->Get(ckey)`: `none` when the
entry is missing (`!cached.valid`), `some none` for a stored null-ids entry,
`some (some ids)` for a cached idset. -/
def cacheGet (c : IdSetCache) (k : List Nat) : Option (Option (List Nat)) :=
  match c.find? (fun e => e.1 == k) with
  | some e => some e.2
  | none => none

/-- The condition under which `SelectKey` consults the idset cache
(indexunordered.cc:276): `!opts.distinct && !opts.disableIdSetCache && keys.size() > 1`. -/
def useIdSetCache (opts : SelectOpts) (keysLen : Nat) : Bool :=
  !opts.distinct && !opts.disableIdSetCache && decide (keysLen > 1)

/-- The scan verdict produced through `tryIdsetCache`
(indexunordered.cc:202-224): a null `cache_` object or a composite index
runs the selector but reports no fallback (`return false`); a cached idset
suppresses the fallback; otherwise (no entry or a stored null-ids entry) the
selector verdict stands. -/
def tryCacheScanWin (cache : Option IdSetCache) (isComposite : Bool) (keys : List Nat)
    (selWin : Bool) : Bool :=
  match cache, isComposite with
  | none, _ => false
  | some _, true => false
  | some c, false =>
    match cacheGet c keys with
    | some (some _) => false
    | _ => selWin

/-- The idset answered directly from the cache, when the cache was consulted
on a non-composite index and held a non-null entry. -/
def cacheHitIds (useCache : Bool) (cache : Option IdSetCache) (isComposite : Bool)
    (keys : List Nat) : Option (List Nat) :=
  if useCache && cache.isSome && !isComposite then
    match cacheGet (cache.getD []) keys with
    | some (some ids) => some ids
    | _ => none
  else none

/-- Model of `IndexUnordered::SelectKey` for the paths the claims regard
(read-only view: the cache insertion performed by `tryIdsetCache` on a miss
does not affect the returned plan and is omitted).  Structure follows the
source: the `forceComparator` short-circuit to `IndexStore::SelectKey`
(modelled from the spec: the store path yields a comparator-only plan, spec
section 4.2), the `CondEmpty` null bucket, the `CondEq` argument-count
guard, the `CondEq`/`CondSet` selector with `tryIdsetCache` (consulted only
when not distinct, caching enabled and more than one key; a null `cache_`
or composite index runs the selector but reports no fallback), the
selectivity fallback to the comparator when the scan wins and the query is
not distinct, the distinct `CondAny` map walk, and the delegation of ordered
conditions to the base index. -/
def selectKey (idx : IndexModel) (keys : List Nat) (cond : CondT) (opts : SelectOpts)
    (isArray isSparse isComposite : Bool) : Except RxError SelectKeyOutcome :=
  if opts.forceComparator then .ok (.comparator false) else
  match cond with
  | .condEmpty =>
    if !isArray && !isSparse then
      .error ⟨.errParams, "The is NULL condition is suported only by sparse or array indexes"⟩
    else .ok (.emptyBucket idx.emptyIds)
  | .condEq | .condSet =>
    if cond = .condEq && decide (keys.length < 1) then
      .error ⟨.errParams, "For condition required at least 1 argument, but provided 0"⟩
    else
      let buckets := gatherBuckets idx.idxMap keys
      let selWin := selectorScanWin buckets opts
      let useCache := useIdSetCache opts keys.length
      let scanWin :=
        if useCache then tryCacheScanWin idx.cache isComposite keys selWin else selWin
      if scanWin && !opts.distinct then .ok (.comparator true)
      else
        match cacheHitIds useCache idx.cache isComposite keys with
        | some ids => .ok (.cachedIdset ids)
        | none => .ok (.idsets buckets)
  | .condAllSet =>
    if keys.all (fun k => (mapLookup k idx.idxMap).isSome) then
      .ok (.idsets (gatherBuckets idx.idxMap keys))
    else .ok (.idsets [[]])
  | .condAny =>
    if opts.distinct && decide (idx.idxMap.length < kMaxIdsForDistinct) then
      .ok (.idsets (idx.idxMap.map (·.2)))
    else .ok (.comparator false)
  | _ => .ok (.comparator false)

/-- The comparator-fallback condition exactly as the claim words it: the
gathered id count exceeds `max_iterations` and also exceeds 20 percent of
the namespace item count.  Written from the claim, to be compared with the
source condition `selectorScanWin`. -/
def claimFallbackCond (buckets : List (List Nat)) (opts : SelectOpts) : Bool :=
  let idsCount := (buckets.map List.length).sum
  decide ((idsCount : Int) > opts.maxIterations)
    && decide (100 * idsCount / opts.itemsCountInNamespace > 20)

/-! ## Namespace state and mutating operations (`core/namespace/namespaceimpl.cc`)

The modelled fragment covers the scalar dense indexes of a namespace: an
item is one optional key value per index slot (a null value routes to the
index null bucket), `items_` is the arena with its free list, and the
per-namespace query and join caches are entry lists cleared by
`markUpdated`.  Iterating the fields of `doUpsert`/`doDelete` touches one
distinct index per field, so the `borderIdx` wrap-around order of the source
is immaterial and the loops are written as an indexed map. -/

/-- An item of the modelled fragment: one scalar key per index slot. -/
abbrev ItemVals := List (Option Nat)

/-- WAL / replication records distinguished by the claims. -/
inductive WalRec where
  | itemUpdate (id : Nat)
  | itemModify (cjson : ItemVals) (isDelete : Bool)
  | updateQuery (sql : Nat)
  | initTransaction
  | commitTransaction
deriving DecidableEq, Repr

/-- The replication-state fields the modelled operations read or write. -/
structure ReplState where
  lastSelfLSN : Nat
  dataHash : Nat
  slaveMode : Bool
  replicatorEnabled : Bool
  statusFatal : Bool
  temporary : Bool
deriving DecidableEq, Repr

/-- State of one namespace (`NamespaceImpl`), restricted to the modelled
fragment: items arena and free list, one `IndexModel` per field, the
position of the PK index, the tags matcher (as the set of registered paths),
the WAL record list (the LSN counter is the list length), replication state,
the query and join caches (entry lists; any entry content stands for a
memoized result), the `uint32_t` capacity snapshot and the read-only flag. -/
structure NsModel where
  items : List (Option ItemVals)
  free : List Nat
  indexes : List IndexModel
  pkField : Nat
  tagsMatcher : List Nat
  wal : List WalRec
  repl : ReplState
  queryCache : List Nat
  joinCache : List Nat
  itemsCapacity : Nat
  readOnly : Bool
deriving DecidableEq, Repr

/-- Model of `NamespaceImpl::markUpdated` (namespaceimpl.cc:1767-1785), the
effects visible in the fragment: `queryCache_->Clear(); joinCache_->Clear();`
(the optimization-state and timestamp bookkeeping has no observable effect
on the modelled state). -/
def markUpdated (st : NsModel) : NsModel :=
  { st with queryCache := [], joinCache := [] }

/-- Model of `TagsMatcher::try_merge` on the success path: the item tags
missing from the namespace matcher are appended. -/
def tmTryMerge (tm itemTm : List Nat) : List Nat :=
  tm ++ itemTm.filter (fun t => decide (t ∉ tm))

/-- Model of `NamespaceImpl::checkApplySlaveUpdate` (namespaceimpl.cc:2491-2512)
for a direct client call (`fromReplication = false`): read-only namespaces
and slaves refuse the write, and a fatal replication status refuses it on a
master. -/
def checkApplySlaveUpdate (r : ReplState) : Except RxError Unit :=
  if r.slaveMode && !r.replicatorEnabled then
    .error ⟨.errLogic, "Cant modify read only ns"⟩
  else if r.slaveMode && r.replicatorEnabled then
    .error ⟨.errLogic, "Cant modify slave ns"⟩
  else if !r.slaveMode && !r.replicatorEnabled && r.statusFatal then
    .error ⟨.errLogic, "Cant modify ns, ns has fatal replication error"⟩
  else .ok ()

/-- Whether the replication state admits a direct write (the non-throwing
case of `checkApplySlaveUpdate`). -/
def replWritable (r : ReplState) : Bool :=
  !r.slaveMode && !r.replicatorEnabled && !r.statusFatal

/-- Model of `NamespaceImpl::findByPK` (namespaceimpl.cc:1660-1685): read the
PK key from the item and ask the PK index for it with `CondEq`; the first id
of the answer, if any.  A null PK (which the source excludes by assertion)
finds nothing. -/
def findByPK (st : NsModel) (it : ItemVals) : Option Nat :=
  match it.getD st.pkField none with
  | none => none
  | some k =>
    match mapLookup k (st.indexes.getD st.pkField default).idxMap with
    | some (i :: _) => some i
    | _ => none

/-- Model of `NamespaceImpl::createItem` (namespaceimpl.cc:2476-2489): reuse
the last free-list slot, else append a fresh slot (the capacity snapshot
grows with the arena). -/
def createItem (st : NsModel) : NsModel × Nat :=
  match st.free.getLast? with
  | some id => ({ st with free := st.free.dropLast, items := st.items.set id (some []) }, id)
  | none =>
    ({ st with items := st.items ++ [some []],
               itemsCapacity := max st.itemsCapacity (st.items.length + 1) },
     st.items.length)

/-- Model of `wal_.Add`: append the record; the returned LSN counter is the
position before the append. -/
def walAdd (st : NsModel) (r : WalRec) : NsModel × Nat :=
  ({ st with wal := st.wal ++ [r] }, st.wal.length)

/-- A simple payload hash for `dataHash` maintenance in the model. -/
def itemHash (it : ItemVals) : Nat :=
  it.foldl (fun a v => 2 * a + (match v with | some n => n + 1 | none => 0)) 1

/-- Model of `NamespaceImpl::doUpsert` (namespaceimpl.cc:1440-1558) for the
scalar fragment: for every field, the new key is read from the incoming
item; on an update the old key is read from the stored payload, an unchanged
field is skipped (`if (krefs == skrefs) continue;`), a changed field is
deleted under the old key and upserted under the new one; on an insert every
field is upserted.  The stored payload is replaced and `dataHash` updated. -/
def doUpsert (st : NsModel) (newIt : ItemVals) (id : Nat) (doUpdate : Bool) : NsModel :=
  let oldIt := (st.items.getD id none).getD []
  let newIndexes := st.indexes.mapIdx (fun f idx =>
    let sk := newIt.getD f none
    if doUpdate then
      let kr := oldIt.getD f none
      if kr == sk then idx
      else (indexUpsert sk id (indexDelete kr id idx).1).1
    else (indexUpsert sk id idx).1)
  let newHash :=
    if doUpdate then st.repl.dataHash ^^^ itemHash oldIt ^^^ itemHash newIt
    else st.repl.dataHash ^^^ itemHash newIt
  { st with indexes := newIndexes,
            items := st.items.set id (some newIt),
            repl := { st.repl with dataHash := newHash } }

/-- Model of `NamespaceImpl::doDelete` (namespaceimpl.cc:1151-1212) for the
scalar fragment: every field of the stored payload is deleted from its
index, `dataHash` is xored out, the slot is freed and pushed on the free
list, the arena is reset once every slot is free, and `markUpdated` runs.
(The blanking of the item WAL slot, `wal_.Set(WALRecord(), ...)`, and the
storage removal are outside the fragment.) -/
def doDelete (st : NsModel) (id : Nat) : NsModel :=
  let it := (st.items.getD id none).getD []
  let st1 := { st with
    indexes := st.indexes.mapIdx (fun f idx => (indexDelete (it.getD f none) id idx).1),
    repl := { st.repl with dataHash := st.repl.dataHash ^^^ itemHash it } }
  let items1 := st1.items.set id none
  let free1 := st1.free ++ [id]
  if free1.length == items1.length then
    markUpdated { st1 with items := [], free := [] }
  else
    markUpdated { st1 with items := items1, free := free1 }

/-- Model of `NamespaceImpl::processWalRecord` (namespaceimpl.cc:2606-2612)
for a direct call: append to the WAL and record the LSN as `lastSelfLSN`
(observer notification carries no modelled state). -/
def processWalRecord (st : NsModel) (r : WalRec) : NsModel :=
  let (st1, lsn) := walAdd st r
  { st1 with repl := { st1.repl with lastSelfLSN := lsn } }

/-- Item-write modes of `modifyItem`. -/
inductive ModifyMode where
  | insert
  | update
  | upsert
deriving DecidableEq, Repr

/-- Model of `NamespaceImpl::modifyItem` (namespaceimpl.cc:1600-1657) for a
direct call on an item without precepts (`setFieldsBasedOnPrecepts` is then
a no-op; a serial precept would write serial metadata through `putMeta`
before the PK lookup, and the precept parser is outside this fragment):
after the slave check, the item tags are merged into the namespace matcher
(`updateTagsMatcherFromItem`), the PK is looked up, and an insert of an
existing PK or an update of a missing PK sets the item id to `-1` and
returns with no further effect.  Otherwise the row id is resolved
or created, a `WalItemUpdate` record is added, `doUpsert` applies the
payload and `markUpdated` clears the namespace caches.  Returns the new
state and the id stored into the item. -/
def modifyItem (st : NsModel) (it : ItemVals) (itemTm : List Nat) (mode : ModifyMode) :
    Except RxError (NsModel × Int) :=
  match checkApplySlaveUpdate st.repl with
  | .error e => .error e
  | .ok _ =>
    let st1 := { st with tagsMatcher := tmTryMerge st.tagsMatcher itemTm }
    let found := findByPK st1 it
    if (found.isSome && mode == .insert) || (found.isNone && mode == .update) then
      .ok (st1, -1)
    else
      let p := match found with
        | some i => (st1, i)
        | none => createItem st1
      let q := walAdd p.1 (.itemUpdate p.2)
      let st4 := { q.1 with repl := { q.1.repl with lastSelfLSN := q.2 } }
      let st5 := doUpsert st4 it p.2 found.isSome
      .ok (markUpdated st5, Int.ofNat p.2)

/-- Model of `NamespaceImpl::Delete(Item&, ...)` (namespaceimpl.cc:1114-1149)
for a direct call: slave check, tags-matcher merge, PK lookup; a missing PK
returns with no further effect (and without touching the item id).
Otherwise the row is deleted and a `WalItemModify` delete record processed.
Returns the new state and the id stored into the item, if any. -/
def deleteItem (st : NsModel) (it : ItemVals) (itemTm : List Nat) :
    Except RxError (NsModel × Option Int) :=
  match checkApplySlaveUpdate st.repl with
  | .error e => .error e
  | .ok _ =>
    let st1 := { st with tagsMatcher := tmTryMerge st.tagsMatcher itemTm }
    match findByPK st1 it with
    | none => .ok (st1, none)
    | some id =>
      let st2 := doDelete st1 id
      let st3 := processWalRecord st2 (.itemModify it true)
      .ok (st3, some (Int.ofNat id))

/-! ## Update-query replication (`NamespaceImpl::Update(const Query&, ...)`,
namespaceimpl.cc:991-1110)

The update executor first scans the update entries for JSON-object and
expression assignments, decides between statement replication and row-by-row
replication, applies the item modifier per selected row (emitting the
row records through `replicateItem`), and finally emits the single
`WalUpdateQuery` record in statement mode. -/

/-- One `UpdateEntry` of an update query, restricted to the two flags the
replication decision reads: `isExpression` and `mode == FieldModeSetJson`. -/
structure UpdateEntryM where
  isExpression : Bool
  isSetJson : Bool
deriving DecidableEq, Repr

/-- Statement-replication row threshold
(namespaceimpl.cc: `kWALStatementItemsThreshold = 5`). -/
def kWALStatementItemsThreshold : Nat := 5

/-- The scan `for (const UpdateEntry &ue : query.UpdateFields()) ... updateWithJson`. -/
def updateWithJson (ues : List UpdateEntryM) : Bool := ues.any (·.isSetJson)

/-- The scan `for (const UpdateEntry &ue : query.UpdateFields()) ... withExpressions`. -/
def withExpressions (ues : List UpdateEntryM) : Bool := ues.any (·.isExpression)

/-- Model of the statement-replication decision (namespaceimpl.cc:1034-1035):
`!updateWithJson && !withExpressions && !query.HasLimit() && !query.HasOffset() && (result.Count() >= kWALStatementItemsThreshold)`. -/
def statementReplication (ues : List UpdateEntryM) (hasLimit hasOffset : Bool)
    (resultCount : Nat) : Bool :=
  !updateWithJson ues && !withExpressions ues && !hasLimit && !hasOffset
    && decide (resultCount ≥ kWALStatementItemsThreshold)

/-- Replication events observed by the update observers for one update
query: the statement record or the per-row CJSON item records. -/
inductive ReplEvent where
  | walUpdateQuery (sql : Nat)
  | walItemModifyCJSON (row : Nat)
deriving DecidableEq, Repr

/-- Model of the observer notification of `NamespaceImpl::replicateItem`
(namespaceimpl.cc:1078-1094) for one row: outside statement mode a
`WalItemModify` CJSON record is sent (unless the namespace is temporary);
in statement mode the row emits nothing. -/
def replicateItemEvents (temporary stmt : Bool) (row : Nat) : List ReplEvent :=
  if stmt then []
  else if temporary then []
  else [.walItemModifyCJSON row]

/-- The replication events emitted by one update query over the selected
rows (namespaceimpl.cc:1042-1068): the per-row loop runs `replicateItem`
for each row, and afterwards statement mode emits the single
`WalUpdateQuery` record (unless the namespace is temporary). -/
def updateQueryReplEvents (temporary : Bool) (ues : List UpdateEntryM)
    (hasLimit hasOffset : Bool) (sql : Nat) (rows : List Nat) : List ReplEvent :=
  let stmt := statementReplication ues hasLimit hasOffset rows.length
  rows.foldl (fun acc r => acc ++ replicateItemEvents temporary stmt r) []
    ++ (if stmt then (if temporary then [] else [.walUpdateQuery sql]) else [])

/-! ## The mutating operations and the caches (claim C4)

`ItemModifier::Modify` (itemmodifier.cc) is not among the sources; its model
below follows the spec: field updates go through the same index
`Delete`/`Upsert` contract and every modification clears the namespace
caches (spec sections 4.5, 4.10 and 8). -/

/-- Modelled from the spec: `ItemModifier::Modify` for one selected row of
an update query (itemmodifier.cc is not among the sources).  The row
payload is rewritten to the new field values through the index
delete/upsert contract (`doUpsert` on the update path) and the namespace
caches are cleared (`markUpdated`); a missing row is excluded by the
executor (`assertrx(items_.exists(item.Id()))`). -/
def itemModifierModify (st : NsModel) (row : Nat × ItemVals) : NsModel :=
  match st.items.getD row.1 none with
  | none => st
  | some _ => markUpdated (doUpsert st row.2 row.1 true)

/-- The per-row body of the update-query loop (namespaceimpl.cc:1042-1052):
the item modifier rewrites the row, then outside statement mode
`replicateItem` adds the row `WalItemUpdate` record to the WAL. -/
def updateQueryRow (stmt : Bool) (st : NsModel) (row : Nat × ItemVals) : NsModel :=
  let st1 := itemModifierModify st row
  if stmt then st1 else processWalRecord st1 (.itemUpdate row.1)

/-- Model of the state effects of `NamespaceImpl::Update(const Query&, ...)`
for a direct call: the slave check, the per-row loop, and the final
statement record. -/
def updateQueryApply (ues : List UpdateEntryM) (hasLimit hasOffset : Bool) (sql : Nat)
    (rows : List (Nat × ItemVals)) (st : NsModel) : NsModel :=
  match checkApplySlaveUpdate st.repl with
  | .error _ => st
  | .ok _ =>
    let stmt := statementReplication ues hasLimit hasOffset rows.length
    let st1 := rows.foldl (updateQueryRow stmt) st
    if stmt then processWalRecord st1 (.updateQuery sql) else st1

/-- Model of the state effects of `NamespaceImpl::Delete(const Query&, ...)`
(namespaceimpl.cc:1214-1265) for a direct call: the slave check, `doDelete`
per selected row, then the statement record or the per-row CJSON delete
records depending on limit/offset and the row threshold. -/
def deleteQueryApply (hasLimit hasOffset : Bool) (sql : Nat) (ids : List Nat)
    (st : NsModel) : NsModel :=
  match checkApplySlaveUpdate st.repl with
  | .error _ => st
  | .ok _ =>
    let cjsons := ids.map (fun i => (st.items.getD i none).getD [])
    let st1 := ids.foldl doDelete st
    if !hasLimit && !hasOffset && decide (ids.length ≥ kWALStatementItemsThreshold) then
      processWalRecord st1 (.updateQuery sql)
    else
      cjsons.foldl (fun s c => processWalRecord s (.itemModify c true)) st1

/-- Model of `NamespaceImpl::addIndex` for a scalar dense index appended at
the tail (namespaceimpl.cc:793-864 with `updateItems`): a fresh index with a
null cache object (`cache_(nullptr)` of the copy/new path) is filled by
upserting the new field value of every live row, the payloads gain the new
field, and `updateSortedIdxCount` ends in `markUpdated`. -/
def addIndexApply (vals : List (Option Nat)) (st : NsModel) : NsModel :=
  let liveIds := (List.range st.items.length).filter (fun i => (st.items.getD i none).isSome)
  let newIdx := liveIds.foldl (fun ix i => (indexUpsert (vals.getD i none) i ix).1) default
  markUpdated
    { st with indexes := st.indexes ++ [newIdx],
              items := st.items.mapIdx (fun i o => o.map (fun it => it ++ [vals.getD i none])) }

/-- Model of `NamespaceImpl::dropIndex` state effects in the scalar
fragment: the index is removed, payloads lose the field, and
`updateSortedIdxCount` ends in `markUpdated`. -/
def dropIndexApply (pos : Nat) (st : NsModel) : NsModel :=
  markUpdated
    { st with indexes := st.indexes.eraseIdx pos,
              items := st.items.map (Option.map (fun it => it.eraseIdx pos)) }

/-- The mutating namespace operations of claim C4. -/
inductive MutOp where
  | modItem (it : ItemVals) (itemTm : List Nat) (mode : ModifyMode)
  | delItem (it : ItemVals) (itemTm : List Nat)
  | delQuery (hasLimit hasOffset : Bool) (sql : Nat) (ids : List Nat)
  | updQuery (ues : List UpdateEntryM) (hasLimit hasOffset : Bool) (sql : Nat)
      (rows : List (Nat × ItemVals))
  | idxAdd (vals : List (Option Nat))
  | idxDrop (pos : Nat)
deriving DecidableEq, Repr

/-- Apply one mutating operation; a thrown slave-check error leaves the
state as it was. -/
def applyMutOp (st : NsModel) (op : MutOp) : NsModel :=
  match op with
  | .modItem it tm m =>
    match modifyItem st it tm m with
    | .ok p => p.1
    | .error _ => st
  | .delItem it tm =>
    match deleteItem st it tm with
    | .ok p => p.1
    | .error _ => st
  | .delQuery hl ho sql ids => deleteQueryApply hl ho sql ids st
  | .updQuery ues hl ho sql rows => updateQueryApply ues hl ho sql rows st
  | .idxAdd vals => addIndexApply vals st
  | .idxDrop pos => dropIndexApply pos st

/-- Whether the operation actually writes: an item write that does not take
the silent no-op path of claim C9, a query over at least one row (with every
updated row live), or an index change.  These are the operations claim C4
quantifies over. -/
def opWrites (st : NsModel) (op : MutOp) : Bool :=
  match op with
  | .modItem it tm m =>
    replWritable st.repl &&
      (let st1 := { st with tagsMatcher := tmTryMerge st.tagsMatcher tm }
       let found := findByPK st1 it
       !((found.isSome && m == .insert) || (found.isNone && m == .update)))
  | .delItem it tm =>
    replWritable st.repl &&
      (findByPK { st with tagsMatcher := tmTryMerge st.tagsMatcher tm } it).isSome
  | .delQuery _ _ _ ids => replWritable st.repl && !ids.isEmpty
  | .updQuery _ _ _ _ rows =>
    replWritable st.repl && !rows.isEmpty
      && rows.all (fun r => (st.items.getD r.1 none).isSome)
  | .idxAdd _ => true
  | .idxDrop _ => true

/-- The entries currently held by an index idset cache; a null cache object
holds none. -/
def cacheEntries (idx : IndexModel) : IdSetCache := idx.cache.getD []

/-- The observable content of one index: its key map and null bucket. -/
def idxContent (idx : IndexModel) : List (Nat × List Nat) × List Nat :=
  (idx.idxMap, idx.emptyIds)

/-- The old index list against which the per-index conclusion of claim C4
compares positions: dropping an index shifts the tail positions, every
other operation keeps them aligned. -/
def alignedOldIndexes (st : NsModel) (op : MutOp) : List IndexModel :=
  match op with
  | .idxDrop pos => st.indexes.eraseIdx pos
  | _ => st.indexes

/-- How one index evolves across a write: either its cache object was reset,
or neither its content nor its cache changed.  `IndexUnordered::Upsert` and
`Delete` maintain exactly this: every content change resets the cache. -/
def IdxEvo (a b : IndexModel) : Prop :=
  b.cache = none ∨ (b.idxMap = a.idxMap ∧ b.emptyIds = a.emptyIds ∧ b.cache = a.cache)

/-- Positionwise evolution of a namespace index list across a write. -/
def IndexesEvo (old new : List IndexModel) : Prop :=
  new.length = old.length ∧ ∀ f : Nat, IdxEvo (old.getD f default) (new.getD f default)

/-! ## Copy-on-write commit (`Namespace::CommitTransaction`, namespace.cc:11-67) -/

/-- Model of the private `NamespaceImpl` copy constructor
(namespaceimpl.cc:287-325) used for the commit clone: items, free list,
tags matcher, WAL and replication state are copied; the query and join
caches are constructed fresh, the locker is default-constructed (the clone
is not read-only), and every index is `Clone()`d, which for
`IndexUnordered` null-initializes the idset cache (`cache_(nullptr)`,
indexunordered.cc:79-80). -/
def cloneNs (ns : NsModel) : NsModel :=
  { ns with queryCache := [], joinCache := [], readOnly := false,
            indexes := ns.indexes.map (fun i => { i with cache := none }) }

/-- `markReadOnly` on a namespace. -/
def markReadOnly (ns : NsModel) : NsModel := { ns with readOnly := true }

/-- The `Namespace` wrapper state around the commit: the main namespace
pointer `ns_`, the in-flight copy `nsCopy_` and the `hasCopy_` flag. -/
structure NsWrapper where
  mainNs : NsModel
  nsCopy : Option NsModel
  hasCopy : Bool
deriving DecidableEq, Repr

/-- Which commit path `Namespace::CommitTransaction` took. -/
inductive CommitPath where
  | copy
  | inPlace
deriving DecidableEq, Repr

/-- Model of `Namespace::CommitTransaction` (namespace.cc:11-67),
parameterized by the transaction replay `applySteps`
(`NamespaceImpl::CommitTransaction` applied to whichever namespace the path
selects).  When `needNamespaceCopy` holds (the recheck under the cloner
mutex sees the same sequential state), the namespace is cloned, the steps
run on the clone, the source is marked read-only and dropped, and the clone
is atomically swapped in; if the replay throws, the clone is destroyed
(`nsCopy_.reset()`), `hasCopy_` drops and the error is rethrown with the
source untouched.  Otherwise the steps run in place on the main namespace.
Returns the wrapper state, the path taken and the rethrown error, if any. -/
def commitTransaction (applySteps : NsModel → Except RxError NsModel)
    (cfg : CopyPolicyConfig) (stepsCount : Nat) (w : NsWrapper) :
    NsWrapper × CommitPath × Option RxError :=
  if needNamespaceCopy cfg w.mainNs.itemsCapacity stepsCount then
    match applySteps (cloneNs w.mainNs) with
    | .error e => ({ mainNs := w.mainNs, nsCopy := none, hasCopy := false }, .copy, some e)
    | .ok nsCopy => ({ mainNs := nsCopy, nsCopy := none, hasCopy := false }, .copy, none)
  else
    match applySteps w.mainNs with
    | .error e => (w, .inPlace, some e)
    | .ok ns1 => ({ w with mainNs := ns1 }, .inPlace, none)

/-- A plain namespace for the concrete witnesses: empty arena, capacity
snapshot of 10, master role. -/
def witnessNs : NsModel :=
  ⟨[], [], [], 0, [], [], ⟨0, 0, false, false, false, false⟩, [], [], 10, false⟩

/-- A one-item namespace with a PK index over field 0 holding key 5 at row 0. -/
def witnessNsOneItem : NsModel :=
  ⟨[some [some 5]], [], [⟨[(5, [0])], [], none⟩], 0, [], [],
   ⟨0, 0, false, false, false, false⟩, [], [], 1, false⟩

/-- A two-key hash index for the C3 counterexample: key 1 holds rows 10 and
11, key 2 holds row 12. -/
def c3Index : IndexModel := ⟨[(1, [10, 11]), (2, [12])], [], none⟩

/-- Select options for the C3 counterexample: 1000 items in the namespace,
`maxIterations = 4`, not distinct, idset cache disabled, no forced
comparator. -/
def c3Opts : SelectOpts := ⟨1000, 4, false, true, false⟩

/-! # Theorems -/

/-- C7: for every fulltext query term with typo matching enabled, a word
reached through a typo of edit count `tcount` contributes relevancy percent
`85 − tcount × 15 / max(1, (wordlen − tcount) / 3)` where `wordlen` is the
matched word length, and a variant produced by stemming contributes its base
percent reduced by the fixed penalty 15. -/
theorem c7_typo_and_stem_relevancy :
    (∀ wordLength tcount : Int, typoWordProc wordLength tcount = specTypoProc wordLength tcount)
      ∧ (∀ baseProc : Int, stemVariantProc baseProc = baseProc - 15) := by
  constructor
  · intro w t
    simp only [typoWordProc, specTypoProc, kTypoProc, kTypoStepProc]
    rw [max_comm]
  · intro b
    rfl

/-- Extracting the tag of a tagged `p_string` word returns the tag that the
constructor stored in bits 59 to 61. -/
theorem pStringType_pStringMk (ptr tag : Nat) (h : tag < 8) :
    pStringType (pStringMk ptr tag) = tag := by
  apply Nat.eq_of_testBit_eq
  intro i
  have h7 : (7 : Nat) = 2 ^ 3 - 1 := by norm_num
  simp only [pStringType, pStringMk, tagMask, tagShift, word64AllOnes, h7,
    Nat.testBit_shiftRight, Nat.testBit_land, Nat.testBit_lor, Nat.testBit_shiftLeft,
    Nat.testBit_xor, Nat.testBit_two_pow_sub_one]
  have h59 : 59 + i - 59 = i := by omega
  rw [h59]
  have hge : decide (59 + i ≥ 59) = true := decide_eq_true (by omega)
  rw [hge]
  by_cases hi : i < 3
  · have e1 : decide (i < 3) = true := decide_eq_true hi
    have e2 : decide (59 + i < 64) = true := decide_eq_true (by omega)
    rw [e1, e2]
    simp
  · have e1 : decide (i < 3) = false := decide_eq_false hi
    have ht : tag.testBit i = false := by
      apply Nat.testBit_lt_two_pow
      have h8 : (2 : Nat) ^ 3 ≤ 2 ^ i := Nat.pow_le_pow_right (by norm_num) (by omega)
      omega
    rw [e1, ht]
    simp

/-- C8 counterexample: the claim that tag value 0 is invalid and denotes
null fails on the code.  A `p_string` built by the C-string constructor from
the concrete pointer 0x1000 carries tag 0 (`tagCstr` is 0, the valid
C-string representation) yet is not the null handle: null is the all-zero
word produced by the default constructor, not tag 0. -/
theorem c8_tag_zero_is_cstr_counterexample :
    pStringType (pStringOfCstr 4096) = 0
      ∧ tagCstr = 0
      ∧ pStringIsNullWord (pStringOfCstr 4096) = false
      ∧ pStringIsNullWord pStringDefault = true := by decide

/-- C8 (amended): every string handle stored inside a payload carries a
3-bit type tag in bits 59 to 61 of its pointer word distinguishing the
eight string representations, with tag values 0 to 7 denoting C-string,
length-prefixed, std::string, varint-prefixed, slice, key-string,
json-pointer and msgpack respectively; the null handle is the all-zero word
of the default constructor (which therefore reads back tag 0, the C-string
tag), and no tag value is invalid. -/
theorem c8_pstring_tag_layout :
    (∀ ptr : Nat, pStringType (pStringOfCstr ptr) = tagCstr)
      ∧ (∀ ptr : Nat, pStringType (pStringOfLstr ptr) = tagLstr)
      ∧ (∀ ptr : Nat, pStringType (pStringOfCxxstr ptr) = tagCxxstr)
      ∧ (∀ ptr : Nat, pStringType (pStringOfVstr ptr) = tagVstr)
      ∧ (∀ ptr : Nat, pStringType (pStringOfSlice ptr) = tagSlice)
      ∧ (∀ ptr : Nat, pStringType (pStringOfKeyString ptr) = tagKeyString)
      ∧ (∀ ptr : Nat, pStringType (pStringOfJsonStr ptr) = tagJsonStr)
      ∧ (∀ ptr : Nat, pStringType (pStringOfMsgPackStr ptr) = tagMsgPackStr)
      ∧ [tagCstr, tagLstr, tagCxxstr, tagVstr, tagSlice, tagKeyString, tagJsonStr,
          tagMsgPackStr] = [0, 1, 2, 3, 4, 5, 6, 7]
      ∧ pStringIsNullWord pStringDefault = true
      ∧ pStringType pStringDefault = tagCstr := by
  refine ⟨fun p => pStringType_pStringMk p tagCstr (by decide),
    fun p => pStringType_pStringMk p tagLstr (by decide),
    fun p => pStringType_pStringMk p tagCxxstr (by decide),
    fun p => pStringType_pStringMk p tagVstr (by decide),
    fun p => pStringType_pStringMk p tagSlice (by decide),
    fun p => pStringType_pStringMk p tagKeyString (by decide),
    fun p => pStringType_pStringMk p tagJsonStr (by decide),
    fun p => pStringType_pStringMk p tagMsgPackStr (by decide),
    by decide, by decide, by decide⟩

/-- C6: dropping the index "price" from a namespace whose composite index
"price+pages" lists it as a component is refused with the namespace indexes
left unchanged, but the thrown error is built from the logging-level
constant `LogError` (see `dropIndex`), not from `errConflict` as the
specification requires — the code evaluated at the failing input. -/
theorem c6_drop_composite_component_error_code :
    dropIndex compositeExampleIndexes "price"
        = (compositeExampleIndexes,
           some ⟨.logLevelLogError, "Cannot remove index: its a part of a composite index"⟩)
      ∧ ErrCode.logLevelLogError ≠ ErrCode.errConflict := by decide

/-- The copy policy condition, with the machine-integer truncations removed
under realistic bounds: inside `uint32_t` ranges the `size_t` product cannot
wrap. -/
theorem needNamespaceCopy_iff (cfg : CopyPolicyConfig) (cap steps : Nat)
    (h1 : cfg.startCopyPolicyTxSize < 2 ^ 32) (h2 : cfg.copyPolicyMultiplier < 2 ^ 32)
    (h3 : cfg.txSizeToAlwaysCopy < 2 ^ 32) (hs : steps < 2 ^ 32) (hc : cap < 2 ^ 32) :
    needNamespaceCopy cfg cap steps = true
      ↔ ((steps ≥ cfg.startCopyPolicyTxSize ∧ cap ≤ cfg.copyPolicyMultiplier * steps)
          ∨ steps ≥ cfg.txSizeToAlwaysCopy) := by
  have hm : cfg.copyPolicyMultiplier * steps < 2 ^ 64 := by
    calc cfg.copyPolicyMultiplier * steps < 2 ^ 32 * 2 ^ 32 := Nat.mul_lt_mul'' h2 hs
      _ = 2 ^ 64 := by norm_num
  simp only [needNamespaceCopy, Nat.mod_eq_of_lt h1, Nat.mod_eq_of_lt h2, Nat.mod_eq_of_lt h3,
    Nat.mod_eq_of_lt hc, Nat.mod_eq_of_lt hm, Bool.or_eq_true, Bool.and_eq_true,
    decide_eq_true_eq]

/-- C1: a transaction commit takes the copy-on-write path exactly when the
number of buffered steps is at least `startCopyPolicyTxSize` and the items
vector capacity is at most `copyPolicyMultiplier` times the step count, or
the step count is at least `txSizeToAlwaysCopy`; otherwise the steps are
applied in place.  Stated under the `uint32_t` ranges of the configuration
and capacity values. -/
theorem c1_commit_copy_policy (applySteps : NsModel → Except RxError NsModel)
    (cfg : CopyPolicyConfig) (stepsCount : Nat) (w : NsWrapper)
    (h1 : cfg.startCopyPolicyTxSize < 2 ^ 32) (h2 : cfg.copyPolicyMultiplier < 2 ^ 32)
    (h3 : cfg.txSizeToAlwaysCopy < 2 ^ 32) (hs : stepsCount < 2 ^ 32)
    (hc : w.mainNs.itemsCapacity < 2 ^ 32) :
    (commitTransaction applySteps cfg stepsCount w).2.1 = CommitPath.copy
      ↔ ((stepsCount ≥ cfg.startCopyPolicyTxSize
            ∧ w.mainNs.itemsCapacity ≤ cfg.copyPolicyMultiplier * stepsCount)
          ∨ stepsCount ≥ cfg.txSizeToAlwaysCopy) := by
  rw [← needNamespaceCopy_iff cfg w.mainNs.itemsCapacity stepsCount h1 h2 h3 hs hc]
  unfold commitTransaction
  by_cases hb : needNamespaceCopy cfg w.mainNs.itemsCapacity stepsCount = true
  · cases hres : applySteps (cloneNs w.mainNs) <;> simp [hb, hres]
  · rw [Bool.not_eq_true] at hb
    cases hres : applySteps w.mainNs <;> simp [hb, hres]

/-- Witness for C1: a 3-step transaction against a capacity-10 namespace
with `startCopyPolicyTxSize = 1`, `copyPolicyMultiplier = 5`,
`txSizeToAlwaysCopy = 10` takes the copy path. -/
theorem c1_commit_copy_policy_witness :
    (commitTransaction (fun ns => .ok ns) ⟨1, 5, 10⟩ 3 ⟨witnessNs, none, false⟩).2.1
      = CommitPath.copy :=
  (c1_commit_copy_policy (fun ns => .ok ns) ⟨1, 5, 10⟩ 3 ⟨witnessNs, none, false⟩
      (by decide) (by decide) (by decide) (by decide) (by decide)).mpr (by decide)

/-- C2: when the copy path is taken and replaying the transaction on the
cloned namespace throws, the clone is destroyed (`nsCopy_` reset, `hasCopy_`
cleared), the error is rethrown, and the source namespace — its items,
indexes, tags matcher and replication state — is exactly as before the
commit began. -/
theorem c2_cloned_commit_failure_preserves_source
    (applySteps : NsModel → Except RxError NsModel) (cfg : CopyPolicyConfig)
    (stepsCount : Nat) (w : NsWrapper) (e : RxError)
    (hcopy : needNamespaceCopy cfg w.mainNs.itemsCapacity stepsCount = true)
    (herr : applySteps (cloneNs w.mainNs) = .error e) :
    commitTransaction applySteps cfg stepsCount w
        = ({ mainNs := w.mainNs, nsCopy := none, hasCopy := false }, .copy, some e)
      ∧ (commitTransaction applySteps cfg stepsCount w).1.mainNs.items = w.mainNs.items
      ∧ (commitTransaction applySteps cfg stepsCount w).1.mainNs.indexes = w.mainNs.indexes
      ∧ (commitTransaction applySteps cfg stepsCount w).1.mainNs.tagsMatcher
          = w.mainNs.tagsMatcher
      ∧ (commitTransaction applySteps cfg stepsCount w).1.mainNs.repl = w.mainNs.repl := by
  have h : commitTransaction applySteps cfg stepsCount w
      = ({ mainNs := w.mainNs, nsCopy := none, hasCopy := false }, .copy, some e) := by
    unfold commitTransaction
    simp [hcopy, herr]
  exact ⟨h, by rw [h], by rw [h], by rw [h], by rw [h]⟩

/-- Witness for C2: a replay that throws on the clone of the concrete
namespace leaves the wrapper holding the untouched source. -/
theorem c2_cloned_commit_failure_witness :
    commitTransaction (fun _ => .error ⟨.errLogic, "apply failed"⟩) ⟨1, 5, 10⟩ 3
        ⟨witnessNs, none, false⟩
        = ({ mainNs := witnessNs, nsCopy := none, hasCopy := false }, .copy,
           some ⟨.errLogic, "apply failed"⟩)
      ∧ (commitTransaction (fun _ => .error ⟨.errLogic, "apply failed"⟩) ⟨1, 5, 10⟩ 3
          ⟨witnessNs, none, false⟩).1.mainNs.items = witnessNs.items
      ∧ (commitTransaction (fun _ => .error ⟨.errLogic, "apply failed"⟩) ⟨1, 5, 10⟩ 3
          ⟨witnessNs, none, false⟩).1.mainNs.indexes = witnessNs.indexes
      ∧ (commitTransaction (fun _ => .error ⟨.errLogic, "apply failed"⟩) ⟨1, 5, 10⟩ 3
          ⟨witnessNs, none, false⟩).1.mainNs.tagsMatcher = witnessNs.tagsMatcher
      ∧ (commitTransaction (fun _ => .error ⟨.errLogic, "apply failed"⟩) ⟨1, 5, 10⟩ 3
          ⟨witnessNs, none, false⟩).1.mainNs.repl = witnessNs.repl :=
  c2_cloned_commit_failure_preserves_source (fun _ => .error ⟨.errLogic, "apply failed"⟩)
    ⟨1, 5, 10⟩ 3 ⟨witnessNs, none, false⟩ ⟨.errLogic, "apply failed"⟩ (by decide) rfl

/-- A writable replication state passes the slave check. -/
theorem checkApplySlaveUpdate_ok (r : ReplState) (h : replWritable r = true) :
    checkApplySlaveUpdate r = .ok () := by
  unfold replWritable at h
  simp only [Bool.and_eq_true, Bool.not_eq_true'] at h
  obtain ⟨⟨h1, h2⟩, h3⟩ := h
  unfold checkApplySlaveUpdate
  simp [h1, h2, h3]

/-- C9: on a writable namespace, `Insert` with an item whose PK already
exists, and `Update` or `Delete` with an item whose PK does not exist,
return without error and change nothing but the tags-matcher merge that
precedes the PK lookup — items, indexes, WAL and replication state are
untouched; `Insert` and `Update` store `-1` into the item id, `Delete`
leaves the id alone. -/
theorem c9_silent_noop_item_ops (st : NsModel) (it : ItemVals) (itemTm : List Nat)
    (hw : replWritable st.repl = true) :
    (∀ i, findByPK { st with tagsMatcher := tmTryMerge st.tagsMatcher itemTm } it = some i →
        modifyItem st it itemTm .insert
          = .ok ({ st with tagsMatcher := tmTryMerge st.tagsMatcher itemTm }, -1))
      ∧ (findByPK { st with tagsMatcher := tmTryMerge st.tagsMatcher itemTm } it = none →
          modifyItem st it itemTm .update
            = .ok ({ st with tagsMatcher := tmTryMerge st.tagsMatcher itemTm }, -1))
      ∧ (findByPK { st with tagsMatcher := tmTryMerge st.tagsMatcher itemTm } it = none →
          deleteItem st it itemTm
            = .ok ({ st with tagsMatcher := tmTryMerge st.tagsMatcher itemTm }, none)) := by
  have hok := checkApplySlaveUpdate_ok st.repl hw
  refine ⟨?_, ?_, ?_⟩
  · intro i hf
    simp [modifyItem, hok, hf]
  · intro hf
    simp [modifyItem, hok, hf]
  · intro hf
    simp [deleteItem, hok, hf]

/-- Witness for C9: inserting the existing key 5 and updating or deleting
the absent key 6 are silent no-ops on the concrete one-item namespace. -/
theorem c9_silent_noop_item_ops_witness :
    modifyItem witnessNsOneItem [some 5] [] .insert
        = .ok ({ witnessNsOneItem with
                 tagsMatcher := tmTryMerge witnessNsOneItem.tagsMatcher [] }, -1)
      ∧ modifyItem witnessNsOneItem [some 6] [] .update
          = .ok ({ witnessNsOneItem with
                   tagsMatcher := tmTryMerge witnessNsOneItem.tagsMatcher [] }, -1)
      ∧ deleteItem witnessNsOneItem [some 6] []
          = .ok ({ witnessNsOneItem with
                   tagsMatcher := tmTryMerge witnessNsOneItem.tagsMatcher [] }, none) :=
  ⟨(c9_silent_noop_item_ops witnessNsOneItem [some 5] [] (by decide)).1 0 (by decide),
   (c9_silent_noop_item_ops witnessNsOneItem [some 6] [] (by decide)).2.1 (by decide),
   (c9_silent_noop_item_ops witnessNsOneItem [some 6] [] (by decide)).2.2 (by decide)⟩

/-- Accumulating a fold of appends is the join of the mapped pieces. -/
theorem foldl_append_acc {α β : Type} (f : α → List β) (l : List α) (init : List β) :
    l.foldl (fun acc r => acc ++ f r) init = init ++ (l.map f).flatten := by
  induction l generalizing init with
  | nil => simp
  | cons a t ih => simp [ih, List.append_assoc]

/-- Flattening mapped empty pieces gives the empty list. -/
theorem flatten_map_nil {α β : Type} (l : List α) :
    (l.map (fun _ => ([] : List β))).flatten = [] := by
  induction l <;> simp [*]

/-- Flattening mapped singletons is the map itself. -/
theorem flatten_map_singleton {α β : Type} (g : α → β) (l : List α) :
    (l.map (fun r => [g r])).flatten = l.map g := by
  induction l <;> simp [*]

/-- The update-query replication events, written without the loop. -/
theorem updateQueryReplEvents_eq (t : Bool) (ues : List UpdateEntryM) (hl ho : Bool)
    (sql : Nat) (rows : List Nat) :
    updateQueryReplEvents t ues hl ho sql rows
      = (rows.map (replicateItemEvents t (statementReplication ues hl ho rows.length))).flatten
        ++ (if statementReplication ues hl ho rows.length then
              (if t then [] else [.walUpdateQuery sql]) else []) := by
  simp only [updateQueryReplEvents]
  rw [foldl_append_acc]
  simp

/-- The statement-replication decision, as a conjunction of its conditions. -/
theorem statementReplication_iff (ues : List UpdateEntryM) (hl ho : Bool) (n : Nat) :
    statementReplication ues hl ho n = true
      ↔ (updateWithJson ues = false ∧ withExpressions ues = false ∧ hl = false ∧ ho = false
          ∧ n ≥ kWALStatementItemsThreshold) := by
  simp only [statementReplication, Bool.and_eq_true, Bool.not_eq_true', decide_eq_true_eq]
  tauto

/-- C5 counterpart evaluation: in statement mode one `WalUpdateQuery` record
is emitted and nothing per row. -/
theorem updateQueryReplEvents_stmt (ues : List UpdateEntryM) (hl ho : Bool) (sql : Nat)
    (rows : List Nat) (h : statementReplication ues hl ho rows.length = true) :
    updateQueryReplEvents false ues hl ho sql rows = [.walUpdateQuery sql] := by
  rw [updateQueryReplEvents_eq, h]
  have hr : replicateItemEvents false true = fun _ => ([] : List ReplEvent) := by
    funext r
    simp [replicateItemEvents]
  rw [hr, flatten_map_nil]
  simp

/-- C5 counterpart evaluation: outside statement mode every affected row is
replicated individually as a CJSON item record. -/
theorem updateQueryReplEvents_rows (ues : List UpdateEntryM) (hl ho : Bool) (sql : Nat)
    (rows : List Nat) (h : statementReplication ues hl ho rows.length = false) :
    updateQueryReplEvents false ues hl ho sql rows
      = rows.map ReplEvent.walItemModifyCJSON := by
  rw [updateQueryReplEvents_eq, h]
  have hr : replicateItemEvents false false = fun r => [ReplEvent.walItemModifyCJSON r] := by
    funext r
    simp [replicateItemEvents]
  rw [hr, flatten_map_singleton]
  simp

/-- C5: an update query on a non-temporary namespace is replicated as a
single statement WAL record (`WalUpdateQuery`) if and only if it contains no
JSON-object assignment, no expression assignment, no limit, no offset, and
the number of affected rows is at least 5; otherwise each affected row is
replicated individually as a CJSON item record. -/
theorem c5_update_statement_replication (ues : List UpdateEntryM) (hasLimit hasOffset : Bool)
    (sql : Nat) (rows : List Nat) :
    (updateQueryReplEvents false ues hasLimit hasOffset sql rows
        = [.walUpdateQuery sql]
      ↔ (updateWithJson ues = false ∧ withExpressions ues = false ∧ hasLimit = false
          ∧ hasOffset = false ∧ rows.length ≥ kWALStatementItemsThreshold))
      ∧ (statementReplication ues hasLimit hasOffset rows.length = false →
          updateQueryReplEvents false ues hasLimit hasOffset sql rows
            = rows.map ReplEvent.walItemModifyCJSON) := by
  constructor
  · constructor
    · intro hev
      by_cases hb : statementReplication ues hasLimit hasOffset rows.length = true
      · exact (statementReplication_iff ues hasLimit hasOffset rows.length).mp hb
      · rw [Bool.not_eq_true] at hb
        rw [updateQueryReplEvents_rows ues hasLimit hasOffset sql rows hb] at hev
        cases rows with
        | nil => simp at hev
        | cons a t => simp at hev
    · intro hconds
      exact updateQueryReplEvents_stmt ues hasLimit hasOffset sql rows
        ((statementReplication_iff ues hasLimit hasOffset rows.length).mpr hconds)
  · exact updateQueryReplEvents_rows ues hasLimit hasOffset sql rows

/-- Witness for C5: five clean rows replicate as one statement record; two
rows with an expression assignment replicate row by row. -/
theorem c5_update_statement_replication_witness :
    updateQueryReplEvents false [] false false 7 [1, 2, 3, 4, 5] = [.walUpdateQuery 7]
      ∧ updateQueryReplEvents false [⟨true, false⟩] false false 7 [1, 2]
          = [1, 2].map ReplEvent.walItemModifyCJSON :=
  ⟨(c5_update_statement_replication [] false false 7 [1, 2, 3, 4, 5]).1.mpr (by decide),
   (c5_update_statement_replication [⟨true, false⟩] false false 7 [1, 2]).2 (by decide)⟩

/-- C10: a select on a hash/unordered index with condition `Eq` and an empty
key list fails with error code `Params` and the message
"For condition required at least 1 argument, but provided 0" instead of
returning an empty result, whenever the call reaches the unordered path
(no forced comparator). -/
theorem c10_cond_eq_empty_keys_errors (idx : IndexModel) (opts : SelectOpts)
    (isArray isSparse isComposite : Bool) (hf : opts.forceComparator = false) :
    selectKey idx [] .condEq opts isArray isSparse isComposite
      = .error ⟨.errParams, "For condition required at least 1 argument, but provided 0"⟩ := by
  simp [selectKey, hf]

/-- Witness for C10: the error at a concrete empty hash index with default
select options. -/
theorem c10_cond_eq_empty_keys_errors_witness :
    (⟨0, 0, false, false, false⟩ : SelectOpts).forceComparator = false
      ∧ selectKey ⟨[], [], none⟩ [] .condEq ⟨0, 0, false, false, false⟩ false false false
          = .error ⟨.errParams, "For condition required at least 1 argument, but provided 0"⟩ :=
  ⟨rfl, c10_cond_eq_empty_keys_errors ⟨[], [], none⟩ ⟨0, 0, false, false, false⟩
    false false false rfl⟩

/-- C3 counterexample: the claim states the comparator fallback fires when
the gathered ids exceed `max_iterations` AND exceed 20 percent of the item
count.  On the concrete two-key select (3 ids gathered, 1000 items,
`maxIterations = 4`) the code takes the fallback — because the source
condition is a disjunction comparing twice the id count against
`maxIterations` — while the claim condition is false (3 is not greater than
4, and 3 ids are well under 20 percent of 1000). -/
theorem c3_fallback_claim_counterexample :
    selectKey c3Index [1, 2] .condSet c3Opts false false false = .ok (.comparator true)
      ∧ claimFallbackCond (gatherBuckets c3Index.idxMap [1, 2]) c3Opts = false :=
  ⟨rfl, rfl⟩

/-- A selectivity-fallback comparator answer is never produced for a
distinct select: the fallback branch is guarded by `!opts.distinct`. -/
theorem selectKey_fallback_not_distinct (idx : IndexModel) (keys : List Nat) (cond : CondT)
    (opts : SelectOpts) (isArray isSparse isComposite : Bool)
    (h : selectKey idx keys cond opts isArray isSparse isComposite = .ok (.comparator true)) :
    opts.distinct = false := by
  by_contra hd
  rw [Bool.not_eq_false] at hd
  by_cases hf : opts.forceComparator = true
  · simp [selectKey, hf] at h
  · rw [Bool.not_eq_true] at hf
    cases cond <;> simp [selectKey, hf, hd] at h <;>
      (repeat' split at h) <;> simp_all

/-- C3 (amended): during an unordered-index select with condition `Eq` or
`Set`, when the idset-cache layer is bypassed (distinct select, caching
disabled, or at most one key), the index returns a comparator instead of the
gathered idsets exactly when the select is not distinct, an `Eq` select has
at least one key, and the selector selectivity check fires: more than one
key bucket was gathered, the namespace is non-empty, and either twice the
gathered id count exceeds `max_iterations` or the gathered ids are more than
20 percent of the namespace item count.  A distinct select never takes this
comparator fallback. -/
theorem c3_selectivity_fallback (idx : IndexModel) (keys : List Nat) (cond : CondT)
    (opts : SelectOpts) (isArray isSparse isComposite : Bool)
    (hf : opts.forceComparator = false)
    (hc : cond = .condEq ∨ cond = .condSet)
    (hbp : (opts.distinct || opts.disableIdSetCache || decide (keys.length ≤ 1)) = true) :
    (selectKey idx keys cond opts isArray isSparse isComposite = .ok (.comparator true)
      ↔ (opts.distinct = false ∧ (cond = .condEq → keys ≠ [])
          ∧ selectorScanWin (gatherBuckets idx.idxMap keys) opts = true))
      ∧ (opts.distinct = true → ∀ cond' keys',
          selectKey idx keys' cond' opts isArray isSparse isComposite
            ≠ .ok (.comparator true)) := by
  have huc : useIdSetCache opts keys.length = false := by
    rcases Bool.or_eq_true_iff.mp hbp with h | h
    · rcases Bool.or_eq_true_iff.mp h with h' | h'
      · simp [useIdSetCache, h']
      · simp [useIdSetCache, h']
    · have hlen := of_decide_eq_true h
      have hgt : decide (keys.length > 1) = false := decide_eq_false (by omega)
      simp [useIdSetCache, hgt]
  constructor
  · rcases hc with hc | hc <;> subst hc
    · cases keys with
      | nil => simp [selectKey, hf]
      | cons k ks =>
        have huc' : useIdSetCache opts (ks.length + 1) = false := by simpa using huc
        cases hd : opts.distinct <;>
          cases hsw : selectorScanWin (gatherBuckets idx.idxMap (k :: ks)) opts <;>
            simp [selectKey, hf, hd, hsw, huc', cacheHitIds]
    · cases hd : opts.distinct <;>
        cases hsw : selectorScanWin (gatherBuckets idx.idxMap keys) opts <;>
          simp [selectKey, hf, hd, hsw, huc, cacheHitIds]
  · intro hd cond' keys' hcontra
    have := selectKey_fallback_not_distinct idx keys' cond' opts isArray isSparse isComposite
      hcontra
    rw [hd] at this
    exact absurd this (by simp)

/-- Witness for C3 (amended): the concrete two-key select of the
counterexample indeed takes the fallback, as the amended condition
predicts. -/
theorem c3_selectivity_fallback_witness :
    selectKey c3Index [1, 2] .condSet c3Opts false false false = .ok (.comparator true) :=
  ((c3_selectivity_fallback c3Index [1, 2] .condSet c3Opts false false false rfl
      (Or.inr rfl) (by decide)).1).mpr (by decide)

/-- Index evolution is reflexive. -/
theorem idxEvo_refl (a : IndexModel) : IdxEvo a a := Or.inr ⟨rfl, rfl, rfl⟩

/-- Index evolution composes. -/
theorem idxEvo_trans {a b c : IndexModel} (h1 : IdxEvo a b) (h2 : IdxEvo b c) : IdxEvo a c := by
  rcases h2 with h2 | ⟨hm, he, hc⟩
  · exact Or.inl h2
  · rcases h1 with h1 | ⟨hm', he', hc'⟩
    · exact Or.inl (hc.trans h1)
    · exact Or.inr ⟨hm.trans hm', he.trans he', hc.trans hc'⟩

/-- A null cache object stays null across an evolution step. -/
theorem idxEvo_cache_none {a b : IndexModel} (h : IdxEvo a b) (ha : a.cache = none) :
    b.cache = none := by
  rcases h with h | ⟨_, _, hc⟩
  · exact h
  · exact hc.trans ha

/-- Index evolution is exactly the cache-invalidation discipline of claim
C4: whenever the observable content changed, the cache holds no entries. -/
theorem idxEvo_content_ne {a b : IndexModel} (h : IdxEvo a b)
    (hne : idxContent b ≠ idxContent a) : cacheEntries b = [] := by
  rcases h with h | ⟨hm, he, _⟩
  · simp [cacheEntries, h]
  · exact absurd (by simp [idxContent, hm, he]) hne

/-- A key appended to a map where it was missing is then found. -/
theorem mapLookup_append_missing (k : Nat) (v : List Nat) (m : List (Nat × List Nat))
    (h : mapLookup k m = none) : mapLookup k (m ++ [(k, v)]) = some v := by
  induction m with
  | nil => simp [mapLookup]
  | cons p r ih =>
    rw [List.cons_append]
    unfold mapLookup at h ⊢
    by_cases hp : p.1 = k
    · simp [hp] at h
    · simp only [hp, if_false] at h ⊢
      exact ih h

/-- Writing back the value a key already holds leaves the map unchanged. -/
theorem mapSetFirst_self (k : Nat) (v : List Nat) (m : List (Nat × List Nat))
    (h : mapLookup k m = some v) : mapSetFirst k v m = m := by
  induction m with
  | nil => simp [mapLookup] at h
  | cons p r ih =>
    obtain ⟨k', v'⟩ := p
    by_cases hp : k' = k
    · subst hp
      simp [mapLookup] at h
      simp [mapSetFirst, h]
    · simp only [mapLookup, hp, if_false] at h
      simp only [mapSetFirst, hp, if_false]
      rw [ih h]

/-- `IndexUnordered::Upsert` either resets the cache or changes nothing. -/
theorem indexUpsert_evo (k : Option Nat) (id : Nat) (idx : IndexModel) :
    IdxEvo idx (indexUpsert k id idx).1 := by
  cases k with
  | none =>
    by_cases hmem : id ∈ idx.emptyIds
    · simp only [indexUpsert, idsetAdd, hmem, if_true]
      exact Or.inr ⟨rfl, rfl, rfl⟩
    · simp only [indexUpsert, idsetAdd, hmem, if_false]
      exact Or.inl rfl
  | some k =>
    by_cases hlk : (mapLookup k idx.idxMap).isSome
    · obtain ⟨b, hb⟩ := Option.isSome_iff_exists.mp hlk
      by_cases hmem : id ∈ b
      · simp only [indexUpsert, idsetAdd, hb, Option.isSome_some, if_true, Option.getD_some,
          hmem]
        exact Or.inr ⟨mapSetFirst_self k b idx.idxMap hb, rfl, rfl⟩
      · simp only [indexUpsert, idsetAdd, hb, Option.isSome_some, if_true, Option.getD_some,
          hmem, if_false]
        exact Or.inl rfl
    · rw [Option.not_isSome_iff_eq_none] at hlk
      have happ := mapLookup_append_missing k [] idx.idxMap hlk
      simp only [indexUpsert, idsetAdd, hlk, Option.isSome_none, Bool.false_eq_true, if_false,
        happ, Option.getD_some, List.not_mem_nil]
      exact Or.inl rfl

/-- `IndexUnordered::Delete` either resets the cache or changes nothing. -/
theorem indexDelete_evo (k : Option Nat) (id : Nat) (idx : IndexModel) :
    IdxEvo idx (indexDelete k id idx).1 := by
  cases k with
  | none => exact Or.inl rfl
  | some k =>
    cases hlk : mapLookup k idx.idxMap with
    | none =>
      simp only [indexDelete, hlk]
      exact idxEvo_refl idx
    | some b =>
      simp only [indexDelete, hlk]
      split
      · exact Or.inl rfl
      · exact Or.inl rfl

/-- Positionwise evolution is reflexive. -/
theorem indexesEvo_refl (l : List IndexModel) : IndexesEvo l l :=
  ⟨rfl, fun _ => idxEvo_refl _⟩

/-- Positionwise evolution composes. -/
theorem indexesEvo_trans {a b c : List IndexModel} (h1 : IndexesEvo a b)
    (h2 : IndexesEvo b c) : IndexesEvo a c :=
  ⟨h2.1.trans h1.1, fun f => idxEvo_trans (h1.2 f) (h2.2 f)⟩

/-- An indexed map whose body evolves every index evolves the list. -/
theorem mapIdx_indexesEvo (l : List IndexModel) (g : Nat → IndexModel → IndexModel)
    (h : ∀ f idx, IdxEvo idx (g f idx)) : IndexesEvo l (l.mapIdx g) := by
  refine ⟨by simp, fun f => ?_⟩
  by_cases hf : f < l.length
  · have h1 : (l.mapIdx g).getD f default = g f (l.getD f default) := by
      rw [List.getD_eq_getElem _ _ (by simpa using hf), List.getD_eq_getElem _ _ hf]
      simp [List.getElem_mapIdx]
    rw [h1]
    exact h f _
  · have h1 : l.getD f default = default := by
      rw [List.getD_eq_getElem?_getD, List.getElem?_eq_none (by omega)]
      rfl
    have h2 : (l.mapIdx g).getD f default = default := by
      rw [List.getD_eq_getElem?_getD, List.getElem?_eq_none (by simp; omega)]
      rfl
    rw [h1, h2]
    exact idxEvo_refl _

/-- `doUpsert` evolves every index through the delete/upsert contract. -/
theorem doUpsert_indexesEvo (st : NsModel) (it : ItemVals) (id : Nat) (b : Bool) :
    IndexesEvo st.indexes (doUpsert st it id b).indexes := by
  unfold doUpsert
  dsimp only
  apply mapIdx_indexesEvo
  intro f idx
  split
  · split
    · exact idxEvo_refl idx
    · exact idxEvo_trans (indexDelete_evo _ id idx) (indexUpsert_evo _ id _)
  · exact indexUpsert_evo _ id idx

/-- `doDelete` evolves every index and leaves the namespace caches empty. -/
theorem doDelete_indexesEvo (st : NsModel) (id : Nat) :
    IndexesEvo st.indexes (doDelete st id).indexes := by
  unfold doDelete markUpdated
  dsimp only
  split
  · apply mapIdx_indexesEvo
    intro f idx
    exact indexDelete_evo _ id idx
  · apply mapIdx_indexesEvo
    intro f idx
    exact indexDelete_evo _ id idx

/-- `doDelete` ends in `markUpdated`: the namespace caches are empty. -/
theorem doDelete_caches (st : NsModel) (id : Nat) :
    (doDelete st id).queryCache = [] ∧ (doDelete st id).joinCache = [] := by
  unfold doDelete markUpdated
  dsimp only
  split
  · exact ⟨rfl, rfl⟩
  · exact ⟨rfl, rfl⟩

/-- `processWalRecord` touches only the WAL and replication fields. -/
theorem processWalRecord_fields (st : NsModel) (r : WalRec) :
    (processWalRecord st r).queryCache = st.queryCache
      ∧ (processWalRecord st r).joinCache = st.joinCache
      ∧ (processWalRecord st r).indexes = st.indexes
      ∧ (processWalRecord st r).items = st.items :=
  ⟨rfl, rfl, rfl, rfl⟩

/-- A writing `modifyItem` call returns a state that went through
`markUpdated`, with every index evolved through the delete/upsert
contract. -/
theorem modifyItem_writes (st : NsModel) (it : ItemVals) (itemTm : List Nat) (m : ModifyMode)
    (hok : checkApplySlaveUpdate st.repl = .ok ())
    (hcond : (((findByPK { st with tagsMatcher := tmTryMerge st.tagsMatcher itemTm } it).isSome
          && m == .insert)
        || ((findByPK { st with tagsMatcher := tmTryMerge st.tagsMatcher itemTm } it).isNone
          && m == .update)) = false) :
    ∃ s i, modifyItem st it itemTm m = .ok (markUpdated s, i)
      ∧ IndexesEvo st.indexes s.indexes := by
  unfold modifyItem
  rw [hok]
  dsimp only
  rw [if_neg (by rw [hcond]; exact Bool.false_ne_true)]
  cases hfb : findByPK { st with tagsMatcher := tmTryMerge st.tagsMatcher itemTm } it with
  | some i =>
    dsimp only
    refine ⟨_, _, rfl, ?_⟩
    exact doUpsert_indexesEvo _ it i _
  | none =>
    cases hfree : ({ st with tagsMatcher := tmTryMerge st.tagsMatcher itemTm } : NsModel).free.getLast? with
    | some id =>
      simp only [createItem, hfree]
      refine ⟨_, _, rfl, ?_⟩
      exact doUpsert_indexesEvo _ it id _
    | none =>
      simp only [createItem, hfree]
      refine ⟨_, _, rfl, ?_⟩
      exact doUpsert_indexesEvo _ it _ _

/-- A found-PK `deleteItem` call deletes the row and processes the WAL
record. -/
theorem deleteItem_found (st : NsModel) (it : ItemVals) (itemTm : List Nat) (i : Nat)
    (hok : checkApplySlaveUpdate st.repl = .ok ())
    (hfb : findByPK { st with tagsMatcher := tmTryMerge st.tagsMatcher itemTm } it = some i) :
    deleteItem st it itemTm
      = .ok (processWalRecord
          (doDelete { st with tagsMatcher := tmTryMerge st.tagsMatcher itemTm } i)
          (.itemModify it true), some (Int.ofNat i)) := by
  unfold deleteItem
  rw [hok]
  dsimp only
  rw [hfb]

/-- Establishing a property at every step establishes it over a nonempty
fold. -/
theorem foldl_establish {α : Type} (step : NsModel → α → NsModel) (P : NsModel → Prop)
    (h : ∀ s a, P (step s a)) :
    ∀ (l : List α) (st : NsModel), l ≠ [] → P (l.foldl step st) := by
  intro l
  induction l with
  | nil => exact fun st hne => absurd rfl hne
  | cons a t ih =>
    intro st _
    cases t with
    | nil => simpa using h st a
    | cons b r => exact ih (step st a) (by simp)

/-- A step-preserved property survives any fold. -/
theorem foldl_preserve {α : Type} (step : NsModel → α → NsModel) (P : NsModel → Prop)
    (h : ∀ s a, P s → P (step s a)) :
    ∀ (l : List α) (st : NsModel), P st → P (l.foldl step st) := by
  intro l
  induction l with
  | nil => exact fun st hst => hst
  | cons a t ih => exact fun st hst => ih (step st a) (h st a hst)

/-- A fold whose every step evolves the indexes evolves them overall. -/
theorem foldl_indexesEvo {α : Type} (step : NsModel → α → NsModel)
    (h : ∀ s a, IndexesEvo s.indexes (step s a).indexes) :
    ∀ (l : List α) (st : NsModel), IndexesEvo st.indexes (l.foldl step st).indexes := by
  intro l
  induction l with
  | nil => exact fun st => indexesEvo_refl _
  | cons a t ih =>
    exact fun st => indexesEvo_trans (h st a) (ih (step st a))

/-- One update-query row evolves the indexes. -/
theorem updateQueryRow_indexesEvo (stmt : Bool) (s : NsModel) (r : Nat × ItemVals) :
    IndexesEvo s.indexes (updateQueryRow stmt s r).indexes := by
  unfold updateQueryRow itemModifierModify
  cases hm : s.items.getD r.1 none with
  | none =>
    dsimp only
    split
    · exact indexesEvo_refl _
    · exact indexesEvo_refl _
  | some v =>
    dsimp only
    have hevo : IndexesEvo s.indexes (markUpdated (doUpsert s r.2 r.1 true)).indexes :=
      doUpsert_indexesEvo s r.2 r.1 true
    split
    · exact hevo
    · exact hevo

/-- One update-query row of a live item leaves the namespace caches empty. -/
theorem updateQueryRow_caches (stmt : Bool) (s : NsModel) (r : Nat × ItemVals)
    (hl : (s.items.getD r.1 none).isSome = true) :
    (updateQueryRow stmt s r).queryCache = [] ∧ (updateQueryRow stmt s r).joinCache = [] := by
  unfold updateQueryRow itemModifierModify
  obtain ⟨v, hv⟩ := Option.isSome_iff_exists.mp hl
  rw [hv]
  dsimp only
  split
  · exact ⟨rfl, rfl⟩
  · exact ⟨rfl, rfl⟩

/-- One update-query row keeps the namespace caches empty. -/
theorem updateQueryRow_caches_preserved (stmt : Bool) (s : NsModel) (r : Nat × ItemVals)
    (h : s.queryCache = [] ∧ s.joinCache = []) :
    (updateQueryRow stmt s r).queryCache = [] ∧ (updateQueryRow stmt s r).joinCache = [] := by
  unfold updateQueryRow itemModifierModify
  cases hm : s.items.getD r.1 none with
  | none =>
    dsimp only
    split
    · exact h
    · exact h
  | some v =>
    dsimp only
    split
    · exact ⟨rfl, rfl⟩
    · exact ⟨rfl, rfl⟩

/-- One update-query row keeps live rows live. -/
theorem updateQueryRow_live (stmt : Bool) (s : NsModel) (r : Nat × ItemVals) (i : Nat)
    (h : (s.items.getD i none).isSome = true) :
    ((updateQueryRow stmt s r).items.getD i none).isSome = true := by
  unfold updateQueryRow itemModifierModify
  cases hm : s.items.getD r.1 none with
  | none =>
    dsimp only
    split
    · exact h
    · exact h
  | some v =>
    unfold doUpsert markUpdated processWalRecord walAdd
    dsimp only
    have hset : ((s.items.set r.1 (some r.2)).getD i none).isSome = true := by
      rw [List.getD_eq_getElem?_getD, List.getElem?_set]
      by_cases he : r.1 = i
      · subst he
        by_cases hlen : r.1 < s.items.length
        · simp [hlen]
        · rw [List.getD_eq_getElem?_getD, List.getElem?_eq_none (by omega)] at h
          simp at h
      · rw [if_neg he, ← List.getD_eq_getElem?_getD]
        exact h
    split
    · exact hset
    · exact hset

/-- Upserting into an index with a null cache object keeps it null. -/
theorem foldl_upsert_cache_none (g : Nat → Option Nat) (l : List Nat) (ix : IndexModel)
    (h : ix.cache = none) :
    (l.foldl (fun ix i => (indexUpsert (g i) i ix).1) ix).cache = none := by
  induction l generalizing ix with
  | nil => exact h
  | cons a t ih => exact ih _ (idxEvo_cache_none (indexUpsert_evo (g a) a ix) h)

/-- Appending a null-cache index to the list satisfies the per-position
cache discipline. -/
theorem append_cache_none_content (old : List IndexModel) (x : IndexModel)
    (hx : x.cache = none) (f : Nat)
    (hne : idxContent ((old ++ [x]).getD f default) ≠ idxContent (old.getD f default)) :
    cacheEntries ((old ++ [x]).getD f default) = [] := by
  by_cases hlt : f < old.length
  · rw [List.getD_append _ _ _ _ hlt] at hne
    exact absurd rfl hne
  · by_cases heq : f = old.length
    · subst heq
      have hget : (old ++ [x]).getD old.length default = x := by
        rw [List.getD_eq_getElem?_getD, List.getElem?_append_right (le_refl _)]
        simp
      rw [hget]
      simp [cacheEntries, hx]
    · have h1 : (old ++ [x]).getD f default = default := by
        rw [List.getD_eq_getElem?_getD, List.getElem?_eq_none (by simp; omega)]
        rfl
      have h2 : old.getD f default = default := by
        rw [List.getD_eq_getElem?_getD, List.getElem?_eq_none (by omega)]
        rfl
      rw [h1, h2] at hne
      exact absurd rfl hne

/-- C4: after every mutating operation on a writable namespace that
actually writes (item insert/update/upsert/delete, update-query,
delete-query, index change), the namespace query cache and join cache are
empty, and the idset cache of every index whose content the write touched
is empty. -/
theorem c4_caches_cleared_after_write (st : NsModel) (op : MutOp)
    (hw : opWrites st op = true) :
    (applyMutOp st op).queryCache = []
      ∧ (applyMutOp st op).joinCache = []
      ∧ ∀ f : Nat,
          idxContent ((applyMutOp st op).indexes.getD f default)
              ≠ idxContent ((alignedOldIndexes st op).getD f default) →
          cacheEntries ((applyMutOp st op).indexes.getD f default) = [] := by
  cases op with
  | modItem it tm m =>
    simp only [opWrites, Bool.and_eq_true, Bool.not_eq_true'] at hw
    obtain ⟨hrw, hcond⟩ := hw
    have hok := checkApplySlaveUpdate_ok st.repl hrw
    obtain ⟨s, i, heq, hevo⟩ := modifyItem_writes st it tm m hok hcond
    have happly : applyMutOp st (.modItem it tm m) = markUpdated s := by
      simp only [applyMutOp, heq]
    rw [happly]
    exact ⟨rfl, rfl, fun f hne => idxEvo_content_ne (hevo.2 f) hne⟩
  | delItem it tm =>
    simp only [opWrites, Bool.and_eq_true] at hw
    obtain ⟨hrw, hsome⟩ := hw
    have hok := checkApplySlaveUpdate_ok st.repl hrw
    obtain ⟨i, hfb⟩ := Option.isSome_iff_exists.mp hsome
    have heq := deleteItem_found st it tm i hok hfb
    have hqc := doDelete_caches { st with tagsMatcher := tmTryMerge st.tagsMatcher tm } i
    have hevo := doDelete_indexesEvo { st with tagsMatcher := tmTryMerge st.tagsMatcher tm } i
    have happly : applyMutOp st (.delItem it tm)
        = processWalRecord
            (doDelete { st with tagsMatcher := tmTryMerge st.tagsMatcher tm } i)
            (.itemModify it true) := by
      simp only [applyMutOp, heq]
    rw [happly]
    exact ⟨hqc.1, hqc.2, fun f hne => idxEvo_content_ne (hevo.2 f) hne⟩
  | delQuery hl ho sql ids =>
    simp only [opWrites, Bool.and_eq_true, Bool.not_eq_true'] at hw
    obtain ⟨hrw, hne⟩ := hw
    have hok := checkApplySlaveUpdate_ok st.repl hrw
    have hids : ids ≠ [] := by
      cases ids
      · simp [List.isEmpty] at hne
      · simp
    have hqc : (ids.foldl doDelete st).queryCache = []
        ∧ (ids.foldl doDelete st).joinCache = [] :=
      foldl_establish doDelete (fun s => s.queryCache = [] ∧ s.joinCache = [])
        (fun s a => doDelete_caches s a) ids st hids
    have hevo : IndexesEvo st.indexes (ids.foldl doDelete st).indexes :=
      foldl_indexesEvo doDelete (fun s a => doDelete_indexesEvo s a) ids st
    have happly : applyMutOp st (.delQuery hl ho sql ids)
        = (if !hl && !ho && decide (ids.length ≥ kWALStatementItemsThreshold)
           then processWalRecord (ids.foldl doDelete st) (.updateQuery sql)
           else (ids.map (fun i => (st.items.getD i none).getD [])).foldl
                  (fun s c => processWalRecord s (.itemModify c true))
                  (ids.foldl doDelete st)) := by
      simp only [applyMutOp, deleteQueryApply, hok]
    rw [happly]
    split
    · refine ⟨(processWalRecord_fields _ _).1.trans hqc.1,
        (processWalRecord_fields _ _).2.1.trans hqc.2, fun f hne' => ?_⟩
      rw [(processWalRecord_fields _ _).2.2.1] at hne' ⊢
      exact idxEvo_content_ne (hevo.2 f) hne'
    · have hall := foldl_preserve (fun s c => processWalRecord s (.itemModify c true))
        (fun s => s.queryCache = [] ∧ s.joinCache = []
          ∧ s.indexes = (ids.foldl doDelete st).indexes)
        (fun s a h => ⟨h.1, h.2.1, h.2.2⟩)
        (ids.map (fun i => (st.items.getD i none).getD []))
        (ids.foldl doDelete st) ⟨hqc.1, hqc.2, rfl⟩
      refine ⟨hall.1, hall.2.1, fun f hne' => ?_⟩
      rw [hall.2.2] at hne' ⊢
      exact idxEvo_content_ne (hevo.2 f) hne'
  | updQuery ues hl ho sql rows =>
    simp only [opWrites, Bool.and_eq_true, Bool.not_eq_true'] at hw
    obtain ⟨⟨hrw, hne⟩, hall⟩ := hw
    have hok := checkApplySlaveUpdate_ok st.repl hrw
    have hrne : rows ≠ [] := by
      cases rows
      · simp [List.isEmpty] at hne
      · simp
    have hqc : ∀ stmt : Bool, (rows.foldl (updateQueryRow stmt) st).queryCache = []
        ∧ (rows.foldl (updateQueryRow stmt) st).joinCache = [] := by
      intro stmt
      rcases List.eq_nil_or_concat rows with hnil | ⟨init, lastR, hcat⟩
      · exact absurd hnil hrne
      · rw [hcat, List.concat_eq_append, List.foldl_append]
        have hmem : lastR ∈ rows := by
          rw [hcat]
          simp
        have hlast0 : (st.items.getD lastR.1 none).isSome = true :=
          List.all_eq_true.mp hall lastR hmem
        have hlive : ((init.foldl (updateQueryRow stmt) st).items.getD lastR.1 none).isSome
            = true :=
          foldl_preserve (updateQueryRow stmt)
            (fun s => (s.items.getD lastR.1 none).isSome = true)
            (fun s a h => updateQueryRow_live stmt s a lastR.1 h) init st hlast0
        simpa using updateQueryRow_caches stmt (init.foldl (updateQueryRow stmt) st)
          lastR hlive
    have hevo : ∀ stmt : Bool,
        IndexesEvo st.indexes (rows.foldl (updateQueryRow stmt) st).indexes := fun stmt =>
      foldl_indexesEvo (updateQueryRow stmt) (fun s a => updateQueryRow_indexesEvo stmt s a)
        rows st
    have happly : applyMutOp st (.updQuery ues hl ho sql rows)
        = (if statementReplication ues hl ho rows.length
           then processWalRecord
                  (rows.foldl (updateQueryRow (statementReplication ues hl ho rows.length)) st)
                  (.updateQuery sql)
           else rows.foldl (updateQueryRow (statementReplication ues hl ho rows.length)) st) := by
      simp only [applyMutOp, updateQueryApply, hok]
    rw [happly]
    split
    · refine ⟨(processWalRecord_fields _ _).1.trans (hqc _).1,
        (processWalRecord_fields _ _).2.1.trans (hqc _).2, fun f hne' => ?_⟩
      rw [(processWalRecord_fields _ _).2.2.1] at hne' ⊢
      exact idxEvo_content_ne ((hevo _).2 f) hne'
    · exact ⟨(hqc _).1, (hqc _).2, fun f hne' => idxEvo_content_ne ((hevo _).2 f) hne'⟩
  | idxAdd vals =>
    refine ⟨rfl, rfl, fun f hne => ?_⟩
    exact append_cache_none_content st.indexes
      (((List.range st.items.length).filter (fun i => (st.items.getD i none).isSome)).foldl
        (fun ix i => (indexUpsert (vals.getD i none) i ix).1) default)
      (foldl_upsert_cache_none (fun i => vals.getD i none)
        ((List.range st.items.length).filter (fun i => (st.items.getD i none).isSome))
        default rfl) f hne
  | idxDrop pos =>
    exact ⟨rfl, rfl, fun f hne => absurd rfl hne⟩

/-- Witness for C4: deleting the only item of the concrete namespace leaves
the query cache, the join cache and the touched index idset cache empty. -/
theorem c4_caches_cleared_after_write_witness :
    (applyMutOp witnessNsOneItem (MutOp.delItem [some 5] [])).queryCache = []
      ∧ (applyMutOp witnessNsOneItem (MutOp.delItem [some 5] [])).joinCache = []
      ∧ cacheEntries
          ((applyMutOp witnessNsOneItem (MutOp.delItem [some 5] [])).indexes.getD 0 default)
          = [] :=
  ⟨(c4_caches_cleared_after_write witnessNsOneItem (MutOp.delItem [some 5] []) (by decide)).1,
   (c4_caches_cleared_after_write witnessNsOneItem (MutOp.delItem [some 5] []) (by decide)).2.1,
   (c4_caches_cleared_after_write witnessNsOneItem (MutOp.delItem [some 5] [])
      (by decide)).2.2 0 (by decide)⟩

end Spec2Proof
